import Mathlib

/-!
Verification of the tezedge baker's event loop and timer
(`src/apps/baker/src/alternative/event_loop.rs`, `src/apps/baker/src/timer.rs`)
against its natural-language specification.

The Rust code is shallowly embedded: machine integers become `Nat`/`Int` with
explicit wrap-around where the code casts, fallible calls become `Option`,
the side effects performed by the driver (scheduling, signing, RPC calls)
become an explicit trace of `Effect` values, and external collaborators that
live outside the embedded files (the Tenderbake machine `handle`, the slots
registry lookups, the canonical binary encoding, the raw signature primitive,
the node's preapply endpoint) are abstract function parameters gathered in an
environment record.
-/

/-- Byte strings are lists of naturals (each conceptually `< 256`). -/
abbrev Bytes : Type := List Nat

/-- 32-byte hashes, kept as byte lists. -/
abbrev Bytes32 : Type := List Nat

/-- The all-zero 32-byte value, `[0u8; 32]` in the source. -/
def zero32 : Bytes32 := List.replicate 32 0

/-- Rust `x as u32` on an `i32` value: reinterpret modulo `2^32`. -/
def u32OfInt (v : Int) : Nat := (v % (2 ^ 32 : Int)).toNat

/-- Rust `x as i64` on a `u64` value: reinterpret modulo `2^64` into the
signed range. -/
def i64OfU64 (n : Nat) : Int :=
  if n < 2 ^ 63 then (n : Int) else (n : Int) - 2 ^ 64

/-! ## Proof-of-work threshold reinterpretation (event_loop.rs lines 57-63)

The driver reads `proof_of_work_threshold` as a decimal `i64` and computes
`u64::from_be_bytes(v.to_be_bytes())`. -/

/-- Big-endian 8-byte representation of an unsigned 64-bit value
(`u64::to_be_bytes`). -/
def u64ToBeBytes (n : Nat) : Bytes :=
  [n / 2 ^ 56 % 256, n / 2 ^ 48 % 256, n / 2 ^ 40 % 256, n / 2 ^ 32 % 256,
   n / 2 ^ 24 % 256, n / 2 ^ 16 % 256, n / 2 ^ 8 % 256, n % 256]

/-- Big-endian 8-byte two's-complement representation of a signed 64-bit
value (`i64::to_be_bytes`): non-negative values encode as themselves,
negative values as `2^64 + v`. -/
def i64ToBeBytes (v : Int) : Bytes :=
  if 0 ≤ v then u64ToBeBytes v.toNat else u64ToBeBytes ((2 ^ 64 + v).toNat)

/-- Big-endian decoding of bytes into an unsigned value
(`u64::from_be_bytes`). -/
def u64FromBeBytes (l : Bytes) : Nat :=
  l.foldl (fun acc b => acc * 256 + b) 0

/-- The threshold computed by the driver at boot:
`u64::from_be_bytes(v.to_be_bytes())` for the parsed `i64` value `v`
(event_loop.rs lines 57-63). -/
def proofOfWorkThresholdOf (v : Int) : Nat :=
  u64FromBeBytes (i64ToBeBytes v)

theorem u64_be_roundtrip (n : Nat) (h : n < 2 ^ 64) :
    u64FromBeBytes (u64ToBeBytes n) = n := by
  simp only [u64FromBeBytes, u64ToBeBytes, List.foldl]
  omega

/-- Claim C5: the `proof_of_work_threshold` constant, parsed as a signed
64-bit value `v`, is reinterpreted bit-for-bit as the unsigned 64-bit
integer with the same big-endian bytes, i.e. the threshold used equals
`v mod 2^64`. -/
theorem c5_pow_threshold_reinterpret (v : Int)
    (hlo : -(2 ^ 63) ≤ v) (hhi : v < 2 ^ 63) :
    proofOfWorkThresholdOf v = (v % (2 ^ 64 : Int)).toNat := by
  unfold proofOfWorkThresholdOf i64ToBeBytes
  by_cases h0 : 0 ≤ v
  · rw [if_pos h0, u64_be_roundtrip]
    · omega
    · omega
  · rw [if_neg h0, u64_be_roundtrip]
    · omega
    · omega

/-- Witness for C5 at `v = -1`: the threshold becomes `2^64 - 1`. -/
theorem c5_pow_threshold_reinterpret_witness :
    (-(2 ^ 63) ≤ (-1 : Int)) ∧ ((-1 : Int) < 2 ^ 63) ∧
      proofOfWorkThresholdOf (-1) = ((-1 : Int) % (2 ^ 64 : Int)).toNat :=
  ⟨by norm_num, by norm_num,
    c5_pow_threshold_reinterpret (-1) (by norm_num) (by norm_num)⟩

/-! ## Data model of the Tenderbake driver (event_loop.rs)

Operations flowing through the driver are opaque identifiers (`Nat`); only
their classification (`kind`) and consensus contents matter to the embedded
control flow. -/

/-- `tb::BlockId` (level, round, payload hash, payload round). -/
structure BlockId where
  level : Int
  round : Int
  payload_hash : Bytes32
  payload_round : Int
deriving DecidableEq

/-- The contents carried by a preendorsement or endorsement operation
(slot, level, round, block payload hash), as destructured by the driver. -/
structure ConsensusContent where
  slot : Nat
  level : Int
  round : Int
  block_payload_hash : Bytes32
deriving DecidableEq

/-- `OperationKind` as the driver distinguishes it: preendorsement,
endorsement, or any other (payload) operation. -/
inductive OpKind where
  | preendorsement (c : ConsensusContent)
  | endorsement (c : ConsensusContent)
  | other
deriving DecidableEq

/-- `tb::Prequorum`: a block id plus votes (validator, operation) in order. -/
structure PrequorumE where
  block_id : BlockId
  votes : List (Nat × Nat)
deriving DecidableEq

/-- `tb::Quorum`: votes (validator, operation) in order. -/
structure QuorumE where
  votes : List (Nat × Nat)
deriving DecidableEq

/-- `BlockPayload`: the three ordered buckets of non-consensus operations. -/
structure PayloadE where
  votes_payload : List Nat
  anonymous_payload : List Nat
  managers_payload : List Nat
deriving DecidableEq

/-- `tb::BlockInfo` as assembled by the driver. -/
structure BlockInfoE where
  pred_hash : Bytes32
  hash : Bytes32
  block_id : BlockId
  timestamp : Nat
  transition : Bool
  prequorum : Option PrequorumE
  quorum : Option QuorumE
  payload : PayloadE
deriving DecidableEq

/-- `tb::Event` fed to the machine's `handle`. -/
inductive TbEvent where
  | proposal (b : BlockInfoE) (now : Nat)
  | preendorsement (c : Nat) (op : Nat) (now : Nat)
  | endorsement (c : Nat) (op : Nat) (now : Nat)
  | payloadItem (op : Nat)
  | timeout
deriving DecidableEq

/-- `tb::Action` returned by the machine's `handle`. -/
inductive TbAction where
  | scheduleTimeout (t : Nat)
  | preendorse (pred_hash : Bytes32) (block_id : BlockId)
  | endorse (pred_hash : Bytes32) (block_id : BlockId)
  | propose (block : BlockInfoE) (proposer : Nat)
deriving DecidableEq

/-- The protocol constants read at boot from
`GET /chains/main/blocks/head/context/constants` (already parsed). -/
structure ConstantsE where
  consensus_committee_size : Nat
  minimal_block_delay : Nat
  delay_increment_per_round : Nat
  proof_of_work_threshold : Int
  blocks_per_commitment : Nat
deriving DecidableEq

/-- `tb::Config` (durations in seconds). -/
structure ConfigE where
  consensus_threshold : Nat
  minimal_block_delay : Nat
  delay_increment_per_round : Nat
deriving DecidableEq

/-- The config built once at boot (event_loop.rs lines 50-56):
`consensus_threshold: 2 * (constants.consensus_committee_size / 3) + 1`. -/
def mkConfig (c : ConstantsE) : ConfigE :=
  { consensus_threshold := 2 * (c.consensus_committee_size / 3) + 1,
    minimal_block_delay := c.minimal_block_delay,
    delay_increment_per_round := c.delay_increment_per_round }

/-- The events dequeued from the inbound channel (`Result<Event>`):
an error, a new head block (opaque raw form), a batch of mempool
operations, or a timer tick. -/
inductive EventE where
  | error
  | block (b : Nat)
  | operations (ops : List Nat)
  | tick
deriving DecidableEq

/-- The `for op in ops` loop of the `Ok(Event::Operations(ops))` branch
(event_loop.rs lines 164-189): unclassified operations are logged only;
resolvable preendorsements and endorsements go to `handle` and the
returned actions are collected in order; any other operation kind goes to
`handle` as `PayloadItem` but the value returned by `handle` is dropped. -/
def handleOperationsOps {M : Type} (handle : M → TbEvent → M × List TbAction)
    (kind : Nat → Option OpKind) (rPre rEnd : ConsensusContent → Option Nat)
    (now : Nat) : M → List Nat → M × List TbAction
  | st, [] => (st, [])
  | st, op :: rest =>
    match kind op with
    | none => handleOperationsOps handle kind rPre rEnd now st rest
    | some (OpKind.preendorsement c) =>
      match rPre c with
      | some rc =>
        let p := handle st (TbEvent.preendorsement rc op now)
        let q := handleOperationsOps handle kind rPre rEnd now p.1 rest
        (q.1, p.2 ++ q.2)
      | none => handleOperationsOps handle kind rPre rEnd now st rest
    | some (OpKind.endorsement c) =>
      match rEnd c with
      | some rc =>
        let p := handle st (TbEvent.endorsement rc op now)
        let q := handleOperationsOps handle kind rPre rEnd now p.1 rest
        (q.1, p.2 ++ q.2)
      | none => handleOperationsOps handle kind rPre rEnd now st rest
    | some OpKind.other =>
      let p := handle st (TbEvent.payloadItem op)
      handleOperationsOps handle kind rPre rEnd now p.1 rest

/-- One iteration of the driver loop (event_loop.rs lines 76-194): dispatch
on the dequeued event and produce the batch of actions passed to
`perform`. `mkProposal` abstracts the construction of the `tb::BlockInfo`
from the raw block (lines 84-154, embedded separately for the prequorum
part as `reconstructPrequorum`). -/
def driverEventActions {M : Type} (handle : M → TbEvent → M × List TbAction)
    (kind : Nat → Option OpKind) (rPre rEnd : ConsensusContent → Option Nat)
    (mkProposal : Nat → BlockInfoE) (st : M) (now : Nat) :
    EventE → M × List TbAction
  | EventE.error => (st, [])
  | EventE.block b => handle st (TbEvent.proposal (mkProposal b) now)
  | EventE.operations ops => handleOperationsOps handle kind rPre rEnd now st ops
  | EventE.tick => handle st TbEvent.timeout

/-- The driver loop (event_loop.rs lines 34-199): the config is bound once
from the boot constants, then each event of the run is handled with that
same config; the result collects, per event, the batch of actions handed
to `perform`. Each event comes with the `now` captured at its dequeue. -/
def driverRun {M : Type} (constants : ConstantsE)
    (handle : ConfigE → M → TbEvent → M × List TbAction)
    (kind : Nat → Option OpKind) (rPre rEnd : ConsensusContent → Option Nat)
    (mkProposal : Nat → BlockInfoE) (st : M) (events : List (Nat × EventE)) :
    M × List (List TbAction) :=
  let config := mkConfig constants
  events.foldl (fun acc ev =>
    let r := driverEventActions (handle config) kind rPre rEnd mkProposal
      acc.1 ev.1 ev.2
    (r.1, acc.2 ++ [r.2])) (st, [])

/-! ## Claim C1: the consensus threshold -/

/-- Constants with committee size 5 (other fields arbitrary). -/
def constants5 : ConstantsE :=
  { consensus_committee_size := 5, minimal_block_delay := 15,
    delay_increment_per_round := 5, proof_of_work_threshold := 0,
    blocks_per_commitment := 1 }

/-- Claim C1 counterexample: at committee size 5 the code configures
threshold `2 * (5 / 3) + 1 = 3`, while the claimed formula
`⌊2·committee/3⌋ + 1` gives `4`. -/
theorem c1_threshold_formula_counterexample :
    (mkConfig constants5).consensus_threshold = 3 ∧
      2 * constants5.consensus_committee_size / 3 + 1 = 4 ∧
      (mkConfig constants5).consensus_threshold ≠
        2 * constants5.consensus_committee_size / 3 + 1 := by
  refine ⟨rfl, rfl, ?_⟩
  decide

/-- A trivial machine state and collaborators used to instantiate
driver-level theorems on closed inputs. -/
def blockW : BlockInfoE :=
  { pred_hash := zero32, hash := zero32,
    block_id := { level := 1, round := 0, payload_hash := zero32,
                  payload_round := 0 },
    timestamp := 0, transition := false, prequorum := none, quorum := none,
    payload := { votes_payload := [], anonymous_payload := [],
                 managers_payload := [] } }

/-- A handle that ignores everything (used for closed witnesses). -/
def handleZero : ConfigE → Unit → TbEvent → Unit × List TbAction :=
  fun _ _ _ => ((), [])

/-- Claim C1 (amended): at boot the driver computes the consensus threshold
exactly once, as `2·⌊committee/3⌋ + 1`; this equals `⌊2·committee/3⌋ + 1`
exactly when the committee size is not congruent to 2 mod 3 (one less
otherwise); and the whole driver run depends only on the behaviour of
`handle` at that boot config — the config is never recomputed. -/
theorem c1_threshold_amended (cs : ConstantsE) :
    ((mkConfig cs).consensus_threshold =
        2 * (cs.consensus_committee_size / 3) + 1 ∧
      (cs.consensus_committee_size % 3 ≠ 2 →
        (mkConfig cs).consensus_threshold =
          2 * cs.consensus_committee_size / 3 + 1) ∧
      (cs.consensus_committee_size % 3 = 2 →
        (mkConfig cs).consensus_threshold + 1 =
          2 * cs.consensus_committee_size / 3 + 1)) ∧
    ∀ (M : Type) (h1 h2 : ConfigE → M → TbEvent → M × List TbAction)
      (kind : Nat → Option OpKind) (rPre rEnd : ConsensusContent → Option Nat)
      (mkP : Nat → BlockInfoE) (st : M) (evs : List (Nat × EventE)),
      (∀ m e, h1 (mkConfig cs) m e = h2 (mkConfig cs) m e) →
      driverRun cs h1 kind rPre rEnd mkP st evs =
        driverRun cs h2 kind rPre rEnd mkP st evs := by
  constructor
  · refine ⟨rfl, ?_, ?_⟩ <;> intro h <;> simp only [mkConfig] <;> omega
  · intro M h1 h2 kind rPre rEnd mkP st evs hagree
    have hfun : h1 (mkConfig cs) = h2 (mkConfig cs) :=
      funext fun m => funext fun e => hagree m e
    unfold driverRun
    simp only [hfun]

/-- Constants with the main-net committee size 7000. -/
def constantsMain : ConstantsE :=
  { consensus_committee_size := 7000, minimal_block_delay := 15,
    delay_increment_per_round := 5, proof_of_work_threshold := 0,
    blocks_per_commitment := 1 }

/-- Witness for C1 (amended) at committee size 7000 (main-net value): the
threshold is 4667 and a closed driver run is handle-config independent. -/
theorem c1_threshold_amended_witness :
    (constantsMain.consensus_committee_size % 3 ≠ 2 ∧
      (mkConfig constantsMain).consensus_threshold = 2 * 7000 / 3 + 1) ∧
    driverRun constantsMain handleZero (fun _ => none) (fun _ => none)
        (fun _ => none) (fun _ => blockW) () [(0, EventE.tick)] =
      driverRun constantsMain handleZero (fun _ => none) (fun _ => none)
        (fun _ => none) (fun _ => blockW) () [(0, EventE.tick)] :=
  ⟨⟨by decide, (c1_threshold_amended constantsMain).1.2.1 (by decide)⟩,
    (c1_threshold_amended constantsMain).2 Unit handleZero handleZero
      (fun _ => none) (fun _ => none) (fun _ => none) (fun _ => blockW) ()
      [(0, EventE.tick)] (fun _ _ => rfl)⟩

/-! ## Claim C3: per-event action handling -/

/-- A probe handle that returns one action exactly on `PayloadItem`. -/
def handlePayloadProbe : Unit → TbEvent → Unit × List TbAction :=
  fun _ e =>
    match e with
    | TbEvent.payloadItem _ => ((), [TbAction.scheduleTimeout 0])
    | _ => ((), [])

/-- A kind function classifying every operation as a payload operation. -/
def kindOther : Nat → Option OpKind := fun _ => some OpKind.other

/-- Claim C3 counterexample: on the operations batch `[7]` whose single
operation is a payload item, `handle` returns the action
`ScheduleTimeout 0`, yet the driver's performed batch for the event is
empty — the returned action is dropped. -/
theorem c3_payload_actions_dropped_counterexample :
    handlePayloadProbe () (TbEvent.payloadItem 7) =
      ((), [TbAction.scheduleTimeout 0]) ∧
    (driverEventActions handlePayloadProbe kindOther (fun _ => none)
        (fun _ => none) (fun _ => blockW) () 0 (EventE.operations [7])).2 =
      [] :=
  ⟨rfl, rfl⟩

/-- Claim C3 (amended): for every dequeued event the driver captures one
logical time `now`, calls `handle`, and performs the returned actions in
order for Block and Tick events and for resolvable consensus operations
(whose `handle` calls all receive that same `now`); channel errors produce
no actions; unclassified or unresolvable operations are skipped; and for
`PayloadItem` operations the driver calls `handle` (so the machine state
advances) but the returned actions are discarded — a batch of operations
all of payload kind contributes no action at all. -/
theorem c3_actions_in_order_amended {M : Type}
    (handle : M → TbEvent → M × List TbAction) (kind : Nat → Option OpKind)
    (rPre rEnd : ConsensusContent → Option Nat) (mkP : Nat → BlockInfoE)
    (st : M) (now : Nat) :
    (∀ b, driverEventActions handle kind rPre rEnd mkP st now (EventE.block b)
        = handle st (TbEvent.proposal (mkP b) now)) ∧
    driverEventActions handle kind rPre rEnd mkP st now EventE.tick
        = handle st TbEvent.timeout ∧
    driverEventActions handle kind rPre rEnd mkP st now EventE.error
        = (st, []) ∧
    (∀ ops, driverEventActions handle kind rPre rEnd mkP st now
        (EventE.operations ops)
        = handleOperationsOps handle kind rPre rEnd now st ops) ∧
    (∀ op rest c rc, kind op = some (OpKind.preendorsement c) →
        rPre c = some rc →
        handleOperationsOps handle kind rPre rEnd now st (op :: rest) =
          ((handleOperationsOps handle kind rPre rEnd now
              (handle st (TbEvent.preendorsement rc op now)).1 rest).1,
            (handle st (TbEvent.preendorsement rc op now)).2 ++
              (handleOperationsOps handle kind rPre rEnd now
                (handle st (TbEvent.preendorsement rc op now)).1 rest).2)) ∧
    (∀ op rest c rc, kind op = some (OpKind.endorsement c) →
        rEnd c = some rc →
        handleOperationsOps handle kind rPre rEnd now st (op :: rest) =
          ((handleOperationsOps handle kind rPre rEnd now
              (handle st (TbEvent.endorsement rc op now)).1 rest).1,
            (handle st (TbEvent.endorsement rc op now)).2 ++
              (handleOperationsOps handle kind rPre rEnd now
                (handle st (TbEvent.endorsement rc op now)).1 rest).2)) ∧
    (∀ op rest, kind op = some OpKind.other →
        handleOperationsOps handle kind rPre rEnd now st (op :: rest) =
          handleOperationsOps handle kind rPre rEnd now
            (handle st (TbEvent.payloadItem op)).1 rest) ∧
    (∀ ops st', (∀ op ∈ ops, kind op = some OpKind.other ∨ kind op = none) →
        (handleOperationsOps handle kind rPre rEnd now st' ops).2 = []) := by
  refine ⟨fun b => rfl, rfl, rfl, fun ops => rfl, ?_, ?_, ?_, ?_⟩
  · intro op rest c rc hk hr
    simp only [handleOperationsOps, hk, hr]
  · intro op rest c rc hk hr
    simp only [handleOperationsOps, hk, hr]
  · intro op rest hk
    simp only [handleOperationsOps, hk]
  · intro ops
    induction ops with
    | nil => intro st' _; simp [handleOperationsOps]
    | cons op rest ih =>
      intro st' hall
      rcases hall op (List.mem_cons_self op rest) with h | h <;>
        simp only [handleOperationsOps, h] <;>
        exact ih _ (fun o ho => hall o (List.mem_cons_of_mem op ho))

/-- Witness for C3 (amended): concrete payload-only batch yields no
actions, and a concrete resolvable-preendorsement step collects the
handle's actions. -/
theorem c3_actions_in_order_amended_witness :
    ((7 : Nat) ∈ [(7 : Nat)] → kindOther 7 = some OpKind.other ∨
        kindOther 7 = none) ∧
    (handleOperationsOps handlePayloadProbe kindOther (fun _ => none)
        (fun _ => none) 0 () [7]).2 = [] :=
  ⟨fun _ => Or.inl rfl,
    (c3_actions_in_order_amended handlePayloadProbe kindOther (fun _ => none)
        (fun _ => none) (fun _ => blockW) () 0).2.2.2.2.2.2.2 [7] ()
      (fun _ _ => Or.inl rfl)⟩

/-! ## Claim C10: prequorum reconstruction from an observed block
(event_loop.rs lines 100-131) -/

/-- The preendorsement-kind operations of a sublist, paired with their
contents, in order (the `filter_map` of lines 102-107). -/
def preendorsementsOf (kind : Nat → Option OpKind) (ops : List Nat) :
    List (ConsensusContent × Nat) :=
  ops.filterMap (fun op =>
    match kind op with
    | some (OpKind.preendorsement c) => some (c, op)
    | _ => none)

/-- The prequorum the driver attaches to an observed block
(event_loop.rs lines 100-131): built from the block's first operation
sublist only; `none` if there is no first sublist or it holds no
preendorsement; otherwise the block id is taken from the first
preendorsement found (with `payload_round` set to that same round) and the
votes are the preendorsements whose `(level, slot)` resolves to a
registered validator, keyed by that validator. -/
def reconstructPrequorum (kind : Nat → Option OpKind)
    (validator : Int → Nat → Option Nat) (operations : List (List Nat)) :
    Option PrequorumE :=
  operations.head?.bind (fun ops =>
    let v := preendorsementsOf kind ops
    match v.head? with
    | none => none
    | some (first, _) =>
      let level := first.level
      some
        { block_id :=
            { level := level, round := first.round,
              payload_hash := first.block_payload_hash,
              payload_round := first.round },
          votes := v.filterMap (fun cv =>
            (validator level cv.1.slot).map (fun val => (val, cv.2))) })

/-- Claim C10: the prequorum of an observed block is reconstructed
exclusively from the first operation sublist — it only depends on that
sublist; it is `none` when the sublist is absent or holds no
preendorsement-kind operation; otherwise its block id takes level, round
and payload hash from the first preendorsement, `payload_round` is that
same round, and preendorsements whose `(level, slot)` resolves to no
registered validator are omitted from the vote set. -/
theorem c10_prequorum_reconstruction (kind : Nat → Option OpKind)
    (validator : Int → Nat → Option Nat) :
    reconstructPrequorum kind validator [] = none ∧
    (∀ ops rest rest', reconstructPrequorum kind validator (ops :: rest) =
        reconstructPrequorum kind validator (ops :: rest')) ∧
    (∀ ops rest, preendorsementsOf kind ops = [] →
        reconstructPrequorum kind validator (ops :: rest) = none) ∧
    (∀ ops rest first op tl,
        preendorsementsOf kind ops = (first, op) :: tl →
        reconstructPrequorum kind validator (ops :: rest) =
          some
            { block_id :=
                { level := first.level, round := first.round,
                  payload_hash := first.block_payload_hash,
                  payload_round := first.round },
              votes := ((first, op) :: tl).filterMap (fun cv =>
                (validator first.level cv.1.slot).map
                  (fun val => (val, cv.2))) }) ∧
    (∀ ops rest q, reconstructPrequorum kind validator (ops :: rest) = some q →
        ∀ val opv, (val, opv) ∈ q.votes →
          ∃ cv ∈ preendorsementsOf kind ops,
            cv.2 = opv ∧ validator q.block_id.level cv.1.slot = some val) := by
  refine ⟨rfl, ?_, ?_, ?_, ?_⟩
  · intro ops rest rest'
    simp [reconstructPrequorum]
  · intro ops rest h
    simp [reconstructPrequorum, h]
  · intro ops rest first op tl h
    simp [reconstructPrequorum, h]
  · intro ops rest q hq val opv hv
    simp only [reconstructPrequorum, List.head?, Option.some_bind] at hq
    cases h : preendorsementsOf kind ops with
    | nil => rw [h] at hq; simp at hq
    | cons fo tl =>
      rw [h] at hq
      obtain ⟨first, op⟩ := fo
      simp only [Option.some.injEq] at hq
      subst hq
      simp only [List.mem_filterMap, Option.map_eq_some'] at hv
      obtain ⟨cv, hcv, v2, hval, heq⟩ := hv
      simp only [Prod.mk.injEq] at heq
      obtain ⟨hv2, hop⟩ := heq
      subst hv2
      exact ⟨cv, hcv, hop, hval⟩

/-- A concrete kind function: operation 1 is a preendorsement at level 5,
round 2, slot 3; everything else is a payload operation. -/
def kindC10 : Nat → Option OpKind := fun op =>
  if op = 1 then some (OpKind.preendorsement ⟨3, 5, 2, zero32⟩)
  else some OpKind.other

/-- A concrete validator lookup: only `(level 5, slot 3)` is registered. -/
def validatorC10 : Int → Nat → Option Nat := fun l s =>
  if l = 5 ∧ s = 3 then some 9 else none

/-- Witness for C10 on the concrete block operation lists `[[1, 2]]`. -/
theorem c10_prequorum_reconstruction_witness :
    preendorsementsOf kindC10 [1, 2] =
      [((⟨3, 5, 2, zero32⟩ : ConsensusContent), 1)] ∧
    reconstructPrequorum kindC10 validatorC10 [[1, 2]] =
      some
        { block_id :=
            { level := (5 : Int), round := 2, payload_hash := zero32,
              payload_round := 2 },
          votes :=
            [((⟨3, 5, 2, zero32⟩ : ConsensusContent), 1)].filterMap
              (fun cv =>
                (validatorC10 5 cv.1.slot).map (fun val => (val, cv.2))) } :=
  ⟨rfl,
    (c10_prequorum_reconstruction kindC10 validatorC10).2.2.2.1 [1, 2] []
      ⟨3, 5, 2, zero32⟩ 1 [] rfl⟩

/-! ## The `perform` function (event_loop.rs lines 201-354)

Side effects become an explicit trace of `Effect` values, and a `Bool`
records whether the action batch ran to completion (`false` = the process
panicked on an `unwrap`). External collaborators whose sources are not
part of the embedded files (the canonical binary encoding, the raw
signature primitive, the slots registry, the preapply RPC, the
proof-of-work search, `BlockPayloadHash::calculate` and
`operation_list_hash`) are abstract function fields of `PerformEnv`. -/

/-- `ProtocolBlockHeader` as assembled by the proposer
(event_loop.rs lines 295-306). -/
structure ProtocolBlockHeaderE where
  payload_hash : Bytes32
  payload_round : Int
  seed_nonce_hash : Option Bytes
  proof_of_work_nonce : Bytes
  liquidity_baking_escape_vote : Bool
  signature : Bytes
deriving DecidableEq

/-- The shell header returned by the preapply endpoint: opaque content plus
the two fields the driver rewrites (proof-of-work nonce, signature). -/
structure ShellHeaderE where
  content : Nat
  proof_of_work_nonce : Bytes
  signature : Bytes
deriving DecidableEq

/-- The typed bodies handed to `CryptoService::sign`. The preendorsement
and endorsement bodies carry branch, slot, level, round and block payload
hash (their `signature` field is the empty placeholder in the source). -/
inductive SignBody where
  | preendorsementB (branch : Bytes32) (slot : Nat) (level : Int)
      (round : Int) (block_payload_hash : Bytes32)
  | endorsementB (branch : Bytes32) (slot : Nat) (level : Int)
      (round : Int) (block_payload_hash : Bytes32)
  | protoHeaderB (h : ProtocolBlockHeaderE)
  | shellHeaderB (h : ShellHeaderE)
deriving DecidableEq

/-- The collaborators `perform` works through. -/
structure PerformEnv where
  publicKeyHash : Nat
  chainId : Bytes
  slots : Nat → Int → Option (List Nat)
  encode : SignBody → Bytes
  signRaw : Bytes → Option Bytes
  preapply : ProtocolBlockHeaderE → Bytes32 → Int → List (List Nat) →
    Option (ShellHeaderE × List (List Nat))
  guessPow : ShellHeaderE → Nat → Bytes
  calcPayloadHash : Bytes32 → Nat → Nat → Option Bytes32
  operationListHash : PayloadE → Option Nat
  blake2b123 : Bytes
  blocksPerCommitment : Nat
  powThreshold : Nat

/-- The watermarked bytes a signature binds:
`magic || chain_id || canonical body bytes`. -/
def watermark (env : PerformEnv) (magic : Nat) (body : SignBody) : Bytes :=
  magic :: (env.chainId ++ env.encode body)

/-- Modelled from the spec: `CryptoService::sign`
(src/apps/baker/src/alternative/mod.rs, not among the embedded sources)
signs `magic || chain_id (4 bytes) || canonical_body_bytes` and returns
the serialized bytes together with the signature; a missing key or
encoding error yields `none`. -/
def signFn (env : PerformEnv) (magic : Nat) (body : SignBody) :
    Option (Bytes × Bytes) :=
  (env.signRaw (watermark env magic body)).map
    (fun s => (env.encode body ++ s, s))

/-- The hard-coded proof-of-work nonce seed `7985fafe1fb70300`
(event_loop.rs line 303). -/
def powSeedNonce : Bytes := [0x79, 0x85, 0xfa, 0xfe, 0x1f, 0xb7, 0x03, 0x00]

/-- The observable side effects of `perform`: scheduling the timer, a
successful signing call (magic and watermarked message), injecting an
operation, calling preapply, injecting a block. -/
inductive Effect where
  | schedule (t : Nat)
  | signed (magic : Nat) (msg : Bytes)
  | injectOperation (data : Bytes)
  | preapplyCall (hdr : ProtocolBlockHeaderE) (pred : Bytes32) (ts : Int)
      (ops : List (List Nat))
  | injectBlock (data : Bytes) (ops : List (List Nat))
deriving DecidableEq

/-- The payload-hash selection of the `Propose` branch
(event_loop.rs lines 281-292): the all-zero payload hash means "derive
from contents" via `BlockPayloadHash::calculate(predecessor_hash,
payload_round as u32, operation_list_hash())`; any other value passes
through unchanged. `none` means one of the two `unwrap`s panicked. -/
def payloadHashDispatch (env : PerformEnv) (block : BlockInfoE) :
    Option Bytes32 :=
  if block.block_id.payload_hash = zero32 then
    (env.operationListHash block.payload).bind (fun olh =>
      env.calcPayloadHash block.pred_hash
        (u32OfInt block.block_id.payload_round) olh)
  else some block.block_id.payload_hash

/-- One action of the `perform` loop (event_loop.rs lines 212-352). -/
def performAction (env : PerformEnv) : TbAction → List Effect × Bool
  | TbAction.scheduleTimeout t => ([Effect.schedule t], true)
  | TbAction.preendorse pred_hash block_id =>
    match (env.slots env.publicKeyHash block_id.level).bind List.head? with
    | none => ([], true)
    | some slot =>
      let body := SignBody.preendorsementB pred_hash slot block_id.level
        block_id.round block_id.payload_hash
      match signFn env 0x12 body with
      | none => ([], false)
      | some (data, _) =>
        ([Effect.signed 0x12 (watermark env 0x12 body),
          Effect.injectOperation data], true)
  | TbAction.endorse pred_hash block_id =>
    match (env.slots env.publicKeyHash block_id.level).bind List.head? with
    | none => ([], true)
    | some slot =>
      let body := SignBody.endorsementB pred_hash slot block_id.level
        block_id.round block_id.payload_hash
      match signFn env 0x13 body with
      | none => ([], false)
      | some (data, _) =>
        ([Effect.signed 0x13 (watermark env 0x13 body),
          Effect.injectOperation data], true)
  | TbAction.propose block _proposer =>
    match payloadHashDispatch env block with
    | none => ([], false)
    | some payload_hash =>
      let pos_in_cycle := u32OfInt block.block_id.level %
        env.blocksPerCommitment
      let protocol_header : ProtocolBlockHeaderE :=
        { payload_hash := payload_hash,
          payload_round := block.block_id.payload_round,
          seed_nonce_hash :=
            if pos_in_cycle = 0 then some env.blake2b123 else none,
          proof_of_work_nonce := powSeedNonce,
          liquidity_baking_escape_vote := false, signature := [] }
      match signFn env 0x11 (SignBody.protoHeaderB protocol_header) with
      | none => ([], false)
      | some (_, signature) =>
        let header0 := { protocol_header with signature := signature }
        let wm1 := Effect.signed 0x11
          (watermark env 0x11 (SignBody.protoHeaderB protocol_header))
        let timestamp := i64OfU64 block.timestamp
        let endorsements :=
          (block.quorum.map (fun q => q.votes.map Prod.snd)).getD []
        let preendorsements :=
          (block.prequorum.map (fun q => q.votes.map Prod.snd)).getD []
        let operations := [endorsements ++ preendorsements,
          block.payload.votes_payload, block.payload.anonymous_payload,
          block.payload.managers_payload]
        let callEff := Effect.preapplyCall header0 block.pred_hash timestamp
          operations
        match env.preapply header0 block.pred_hash timestamp operations with
        | none => ([wm1, callEff], true)
        | some (header, preapplied) =>
          let header1 := { header with signature := List.replicate 64 0 }
          let header2 := { header1 with
            proof_of_work_nonce := env.guessPow header1 env.powThreshold }
          let header3 := { header2 with signature := [] }
          match signFn env 0x11 (SignBody.shellHeaderB header3) with
          | none => ([wm1, callEff], false)
          | some (data, _) =>
            ([wm1, callEff,
              Effect.signed 0x11
                (watermark env 0x11 (SignBody.shellHeaderB header3)),
              Effect.injectBlock data preapplied], true)

/-- The `for action in actions` loop of `perform`: actions run in order;
a panic (`false`) keeps the effects already performed and stops. -/
def perform (env : PerformEnv) : List TbAction → List Effect × Bool
  | [] => ([], true)
  | a :: rest =>
    let r := performAction env a
    if r.2 then
      let r' := perform env rest
      (r.1 ++ r'.1, r'.2)
    else (r.1, false)

/-! ## Claim C2: payload-hash derivation on Propose -/

/-- Claim C2: when a `Propose` action carries a block whose
`block_id.payload_hash` is the all-zero 32-byte value, the payload hash
submitted (in the protocol header handed to preapply) is
`H(predecessor_hash, payload_round, operation_list_hash(payload))`; a
non-zero payload hash passes through unchanged. -/
theorem c2_payload_hash_derivation (env : PerformEnv) (block : BlockInfoE)
    (p : Nat) :
    (block.block_id.payload_hash = zero32 →
      payloadHashDispatch env block =
        (env.operationListHash block.payload).bind (fun olh =>
          env.calcPayloadHash block.pred_hash
            (u32OfInt block.block_id.payload_round) olh)) ∧
    (block.block_id.payload_hash ≠ zero32 →
      payloadHashDispatch env block = some block.block_id.payload_hash) ∧
    (∀ ph hdr pr ts ops, payloadHashDispatch env block = some ph →
      Effect.preapplyCall hdr pr ts ops ∈
        (performAction env (TbAction.propose block p)).1 →
      hdr.payload_hash = ph ∧
        hdr.payload_round = block.block_id.payload_round) := by
  refine ⟨?_, ?_, ?_⟩
  · intro h
    simp [payloadHashDispatch, h]
  · intro h
    simp [payloadHashDispatch, h]
  · intro ph hdr pr ts ops hdisp hmem
    simp only [performAction, hdisp] at hmem
    cases hs1 : signFn env 0x11 (SignBody.protoHeaderB
        { payload_hash := ph, payload_round := block.block_id.payload_round,
          seed_nonce_hash :=
            if u32OfInt block.block_id.level % env.blocksPerCommitment = 0
            then some env.blake2b123 else none,
          proof_of_work_nonce := powSeedNonce,
          liquidity_baking_escape_vote := false, signature := [] }) with
    | none => rw [hs1] at hmem; simp at hmem
    | some ds =>
      obtain ⟨d, s⟩ := ds
      rw [hs1] at hmem
      simp only at hmem
      cases hp : env.preapply _ block.pred_hash (i64OfU64 block.timestamp) _
      all_goals rw [hp] at hmem
      · simp only [List.mem_cons, List.not_mem_nil, or_false] at hmem
        rcases hmem with h | h <;> cases h
        exact ⟨rfl, rfl⟩
      · rename_i hdrops
        obtain ⟨header, preapplied⟩ := hdrops
        simp only at hmem
        cases hs2 : signFn env 0x11 (SignBody.shellHeaderB _)
        all_goals rw [hs2] at hmem
        · simp only [List.mem_cons, List.not_mem_nil, or_false] at hmem
          rcases hmem with h | h <;> cases h
          exact ⟨rfl, rfl⟩
        · simp only [List.mem_cons, List.not_mem_nil, or_false] at hmem
          rcases hmem with h | h | h | h <;> cases h
          exact ⟨rfl, rfl⟩

/-- A fully concrete environment in which every collaborator succeeds. -/
def envW : PerformEnv :=
  { publicKeyHash := 0, chainId := [1, 2, 3, 4],
    slots := fun _ _ => some [5],
    encode := fun _ => [9],
    signRaw := fun _ => some [8],
    preapply := fun _ _ _ _ =>
      some ({ content := 0, proof_of_work_nonce := [], signature := [] },
        [[2]]),
    guessPow := fun _ _ => [7, 7],
    calcPayloadHash := fun _ r olh => some [1, r, olh],
    operationListHash := fun _ => some 4,
    blake2b123 := [3], blocksPerCommitment := 1, powThreshold := 0 }

/-- Witness for C2: on the concrete block with all-zero payload hash the
dispatch derives the hash from predecessor, payload round and operation
list hash. -/
theorem c2_payload_hash_derivation_witness :
    blockW.block_id.payload_hash = zero32 ∧
    payloadHashDispatch envW blockW =
      (envW.operationListHash blockW.payload).bind (fun olh =>
        envW.calcPayloadHash blockW.pred_hash
          (u32OfInt blockW.block_id.payload_round) olh) :=
  ⟨rfl, (c2_payload_hash_derivation envW blockW 0).1 rfl⟩

/-! ## Claim C6: the four operation sublists handed to preapply -/

/-- Claim C6: for every `Propose` action, the operation lists submitted to
preapply are exactly `[ endorsements ++ preendorsements (the quorum and
prequorum votes, in their stored order), votes_payload, anonymous_payload,
managers_payload ]`, against the proposed block's predecessor hash. -/
theorem c6_preapply_operation_lists (env : PerformEnv) (block : BlockInfoE)
    (p : Nat) (effs : List Effect) (ok : Bool)
    (hrun : performAction env (TbAction.propose block p) = (effs, ok)) :
    ∀ hdr pr ts ops, Effect.preapplyCall hdr pr ts ops ∈ effs →
      ops = [((block.quorum.map (fun q => q.votes.map Prod.snd)).getD []) ++
          ((block.prequorum.map (fun q => q.votes.map Prod.snd)).getD []),
        block.payload.votes_payload, block.payload.anonymous_payload,
        block.payload.managers_payload] ∧
      pr = block.pred_hash ∧ ts = i64OfU64 block.timestamp := by
  intro hdr pr ts ops hmem
  have heffs : effs = (performAction env (TbAction.propose block p)).1 := by
    rw [hrun]
  rw [heffs] at hmem
  simp only [performAction] at hmem
  cases hdisp : payloadHashDispatch env block
  all_goals rw [hdisp] at hmem
  · simp at hmem
  · simp only at hmem
    cases hs1 : signFn env 0x11 (SignBody.protoHeaderB _)
    all_goals rw [hs1] at hmem
    · simp at hmem
    · rename_i ds
      obtain ⟨d, s⟩ := ds
      simp only at hmem
      cases hp : env.preapply _ block.pred_hash (i64OfU64 block.timestamp) _
      all_goals rw [hp] at hmem
      · simp only [List.mem_cons, List.not_mem_nil, or_false] at hmem
        rcases hmem with h | h <;> cases h
        exact ⟨rfl, rfl, rfl⟩
      · rename_i hdrops
        obtain ⟨header, preapplied⟩ := hdrops
        simp only at hmem
        cases hs2 : signFn env 0x11 (SignBody.shellHeaderB _)
        all_goals rw [hs2] at hmem
        · simp only [List.mem_cons, List.not_mem_nil, or_false] at hmem
          rcases hmem with h | h <;> cases h
          exact ⟨rfl, rfl, rfl⟩
        · simp only [List.mem_cons, List.not_mem_nil, or_false] at hmem
          rcases hmem with h | h | h | h <;> cases h
          exact ⟨rfl, rfl, rfl⟩

/-- A block with a quorum and prequorum, for exercising the propose path. -/
def blockQ : BlockInfoE :=
  { pred_hash := zero32, hash := zero32,
    block_id := { level := 2, round := 0, payload_hash := [6],
                  payload_round := 0 },
    timestamp := 0, transition := false,
    prequorum := some { block_id := { level := 2, round := 0,
                                      payload_hash := [6],
                                      payload_round := 0 },
                        votes := [(1, 11), (2, 12)] },
    quorum := some { votes := [(3, 13)] },
    payload := { votes_payload := [21], anonymous_payload := [22],
                 managers_payload := [23] } }

/-- The protocol header the concrete propose run hands to preapply. -/
def hdrQ : ProtocolBlockHeaderE :=
  { payload_hash := [6], payload_round := 0, seed_nonce_hash := some [3],
    proof_of_work_nonce := powSeedNonce,
    liquidity_baking_escape_vote := false, signature := [8] }

/-- Witness for C6: the concrete propose run calls preapply with
`[[13, 11, 12], [21], [22], [23]]` — quorum votes first, then prequorum
votes, then the three payload buckets. -/
theorem c6_preapply_operation_lists_witness :
    Effect.preapplyCall hdrQ zero32 0 [[13, 11, 12], [21], [22], [23]] ∈
      (performAction envW (TbAction.propose blockQ 0)).1 ∧
    [[13, 11, 12], [21], [22], [23]] =
      [((blockQ.quorum.map (fun q => q.votes.map Prod.snd)).getD []) ++
          ((blockQ.prequorum.map (fun q => q.votes.map Prod.snd)).getD []),
        blockQ.payload.votes_payload, blockQ.payload.anonymous_payload,
        blockQ.payload.managers_payload] := by
  constructor
  · decide
  · exact (c6_preapply_operation_lists envW blockQ 0
      (performAction envW (TbAction.propose blockQ 0)).1
      (performAction envW (TbAction.propose blockQ 0)).2 rfl
      hdrQ zero32 0 [[13, 11, 12], [21], [22], [23]] (by decide)).1.symm

/-! ## Claim C4: signing failure handling -/

/-- An environment whose signing key always fails. -/
def envSignFail : PerformEnv :=
  { publicKeyHash := 0, chainId := [1, 2, 3, 4],
    slots := fun _ _ => some [5],
    encode := fun _ => [9],
    signRaw := fun _ => none,
    preapply := fun _ _ _ _ =>
      some ({ content := 0, proof_of_work_nonce := [], signature := [] },
        [[2]]),
    guessPow := fun _ _ => [7, 7],
    calcPayloadHash := fun _ r olh => some [1, r, olh],
    operationListHash := fun _ => some 4,
    blake2b123 := [3], blocksPerCommitment := 1, powThreshold := 0 }

/-- A block id used by the closed signing-failure runs. -/
def bidW : BlockId :=
  { level := 1, round := 0, payload_hash := zero32, payload_round := 0 }

/-- Claim C4 counterexample: with a failing key, performing
`[Preendorse, ScheduleTimeout 7]` panics on the first action's `unwrap`
(`false`) and produces no effects — the remaining `ScheduleTimeout` is
not attempted, although performing it alone would schedule the timer. -/
theorem c4_signing_failure_counterexample :
    envSignFail.signRaw (watermark envSignFail 0x12
      (SignBody.preendorsementB zero32 5 1 0 zero32)) = none ∧
    perform envSignFail
      [TbAction.preendorse zero32 bidW, TbAction.scheduleTimeout 7] =
      ([], false) ∧
    perform envSignFail [TbAction.scheduleTimeout 7] =
      ([Effect.schedule 7], true) :=
  ⟨rfl, rfl, rfl⟩

/-- Claim C4 (amended): if signing fails while performing a Preendorse,
Endorse, or Propose action (missing key or encoding error), the driver
panics on the `unwrap` of the signing result: the failing action injects
nothing and the remaining actions of the batch are not attempted (the
whole `perform` run stops with `false`). -/
theorem c4_signing_failure_amended (env : PerformEnv) (pred : Bytes32)
    (bid : BlockId) (rest : List TbAction) :
    (∀ slot, (env.slots env.publicKeyHash bid.level).bind List.head? =
        some slot →
      env.signRaw (watermark env 0x12 (SignBody.preendorsementB pred slot
        bid.level bid.round bid.payload_hash)) = none →
      perform env (TbAction.preendorse pred bid :: rest) = ([], false)) ∧
    (∀ slot, (env.slots env.publicKeyHash bid.level).bind List.head? =
        some slot →
      env.signRaw (watermark env 0x13 (SignBody.endorsementB pred slot
        bid.level bid.round bid.payload_hash)) = none →
      perform env (TbAction.endorse pred bid :: rest) = ([], false)) ∧
    (∀ block p ph, payloadHashDispatch env block = some ph →
      env.signRaw (watermark env 0x11 (SignBody.protoHeaderB
        { payload_hash := ph, payload_round := block.block_id.payload_round,
          seed_nonce_hash :=
            if u32OfInt block.block_id.level % env.blocksPerCommitment = 0
            then some env.blake2b123 else none,
          proof_of_work_nonce := powSeedNonce,
          liquidity_baking_escape_vote := false,
          signature := [] })) = none →
      perform env (TbAction.propose block p :: rest) = ([], false)) := by
  refine ⟨?_, ?_, ?_⟩
  · intro slot hslot hsig
    simp only [watermark] at hsig
    simp only [perform, performAction, hslot, signFn, watermark, hsig,
      Option.map_none']
    simp
  · intro slot hslot hsig
    simp only [watermark] at hsig
    simp only [perform, performAction, hslot, signFn, watermark, hsig,
      Option.map_none']
    simp
  · intro block p ph hdisp hsig
    simp only [watermark] at hsig
    simp only [perform, performAction, hdisp, signFn, watermark, hsig,
      Option.map_none']
    simp

/-- Witness for C4 (amended) on the concrete failing-key environment. -/
theorem c4_signing_failure_amended_witness :
    (envSignFail.slots envSignFail.publicKeyHash bidW.level).bind
      List.head? = some 5 ∧
    envSignFail.signRaw (watermark envSignFail 0x12
      (SignBody.preendorsementB zero32 5 bidW.level bidW.round
        bidW.payload_hash)) = none ∧
    perform envSignFail
      [TbAction.preendorse zero32 bidW, TbAction.endorse zero32 bidW] =
      ([], false) :=
  ⟨rfl, rfl,
    (c4_signing_failure_amended envSignFail zero32 bidW
      [TbAction.endorse zero32 bidW]).1 5 rfl rfl⟩

/-! ## Claim C9: slot lookup for Preendorse / Endorse -/

/-- Claim C9: for a Preendorse or Endorse action, if our public key hash
has no (first) registered slot at `block_id.level`, the action is skipped
entirely — no signing, no injection, no panic, and the batch continues as
if the action were absent; when slots exist the operation is built and
signed with the first slot of the slot list, which is the lowest when the
list is sorted. -/
theorem c9_slot_lookup (env : PerformEnv) (pred : Bytes32) (bid : BlockId)
    (rest : List TbAction) :
    ((env.slots env.publicKeyHash bid.level).bind List.head? = none →
      perform env (TbAction.preendorse pred bid :: rest) =
        perform env rest ∧
      perform env (TbAction.endorse pred bid :: rest) =
        perform env rest) ∧
    (∀ l s sig, env.slots env.publicKeyHash bid.level = some l →
      l.head? = some s →
      env.signRaw (watermark env 0x12 (SignBody.preendorsementB pred s
        bid.level bid.round bid.payload_hash)) = some sig →
      performAction env (TbAction.preendorse pred bid) =
        ([Effect.signed 0x12 (watermark env 0x12
            (SignBody.preendorsementB pred s bid.level bid.round
              bid.payload_hash)),
          Effect.injectOperation (env.encode (SignBody.preendorsementB pred
            s bid.level bid.round bid.payload_hash) ++ sig)], true)) ∧
    (∀ l s sig, env.slots env.publicKeyHash bid.level = some l →
      l.head? = some s →
      env.signRaw (watermark env 0x13 (SignBody.endorsementB pred s
        bid.level bid.round bid.payload_hash)) = some sig →
      performAction env (TbAction.endorse pred bid) =
        ([Effect.signed 0x13 (watermark env 0x13
            (SignBody.endorsementB pred s bid.level bid.round
              bid.payload_hash)),
          Effect.injectOperation (env.encode (SignBody.endorsementB pred
            s bid.level bid.round bid.payload_hash) ++ sig)], true)) ∧
    (∀ (l : List Nat) (s : Nat), l.head? = some s →
      List.Sorted (· ≤ ·) l → ∀ x ∈ l, s ≤ x) := by
  refine ⟨?_, ?_, ?_, ?_⟩
  · intro hnone
    constructor <;> simp [perform, performAction, hnone]
  · intro l s sig hl hhead hsig
    have hbind : (env.slots env.publicKeyHash bid.level).bind List.head? =
        some s := by rw [hl, Option.some_bind, hhead]
    simp only [watermark] at hsig
    simp only [performAction, hbind, signFn, watermark, hsig,
      Option.map_some']
  · intro l s sig hl hhead hsig
    have hbind : (env.slots env.publicKeyHash bid.level).bind List.head? =
        some s := by rw [hl, Option.some_bind, hhead]
    simp only [watermark] at hsig
    simp only [performAction, hbind, signFn, watermark, hsig,
      Option.map_some']
  · intro l s hhead hsorted x hx
    cases l with
    | nil => simp at hhead
    | cons a t =>
      simp only [List.head?_cons, Option.some.injEq] at hhead
      subst hhead
      rcases List.mem_cons.mp hx with h | h
      · exact h.ge
      · exact (List.sorted_cons.mp hsorted).1 x h

/-- An environment in which our key has no slots at any level. -/
def envNoSlot : PerformEnv :=
  { envW with slots := fun _ _ => none }

/-- Witness for C9: with no slot the preendorse action vanishes from the
batch; with slot list `[5]` the operation is signed with slot 5. -/
theorem c9_slot_lookup_witness :
    (envNoSlot.slots envNoSlot.publicKeyHash bidW.level).bind List.head? =
      none ∧
    perform envNoSlot
        [TbAction.preendorse zero32 bidW, TbAction.scheduleTimeout 7] =
      perform envNoSlot [TbAction.scheduleTimeout 7] ∧
    performAction envW (TbAction.preendorse zero32 bidW) =
      ([Effect.signed 0x12 (watermark envW 0x12
          (SignBody.preendorsementB zero32 5 bidW.level bidW.round
            bidW.payload_hash)),
        Effect.injectOperation (envW.encode (SignBody.preendorsementB
          zero32 5 bidW.level bidW.round bidW.payload_hash) ++ [8])],
        true) :=
  ⟨rfl,
    ((c9_slot_lookup envNoSlot zero32 bidW [TbAction.scheduleTimeout 7]).1
      rfl).1,
    (c9_slot_lookup envW zero32 bidW []).2.1 [5] 5 [8] rfl rfl rfl⟩

/-! ## Claim C7: signing magic bytes -/

/-- The magic byte each body kind must be signed under: 0x11 for block
headers (protocol and shell), 0x12 for preendorsements, 0x13 for
endorsements. -/
def bodyMagicOk : Nat → SignBody → Prop := fun m b =>
  match b with
  | SignBody.preendorsementB _ _ _ _ _ => m = 0x12
  | SignBody.endorsementB _ _ _ _ _ => m = 0x13
  | SignBody.protoHeaderB _ => m = 0x11
  | SignBody.shellHeaderB _ => m = 0x11

theorem performAction_signed_shape (env : PerformEnv) (a : TbAction) :
    ∀ m msg, Effect.signed m msg ∈ (performAction env a).1 →
      ∃ body, msg = watermark env m body ∧ bodyMagicOk m body := by
  intro m msg hmem
  cases a with
  | scheduleTimeout t => simp [performAction] at hmem
  | preendorse pred bid =>
    simp only [performAction] at hmem
    cases hb : (env.slots env.publicKeyHash bid.level).bind List.head?
    all_goals rw [hb] at hmem
    · simp at hmem
    · rename_i slot
      simp only at hmem
      cases hs : signFn env 0x12 (SignBody.preendorsementB pred slot
        bid.level bid.round bid.payload_hash)
      all_goals rw [hs] at hmem
      · simp at hmem
      · rename_i ds
        obtain ⟨d, s⟩ := ds
        simp only [List.mem_cons, List.not_mem_nil, or_false] at hmem
        rcases hmem with h | h <;> cases h
        exact ⟨SignBody.preendorsementB pred slot bid.level bid.round
          bid.payload_hash, rfl, rfl⟩
  | endorse pred bid =>
    simp only [performAction] at hmem
    cases hb : (env.slots env.publicKeyHash bid.level).bind List.head?
    all_goals rw [hb] at hmem
    · simp at hmem
    · rename_i slot
      simp only at hmem
      cases hs : signFn env 0x13 (SignBody.endorsementB pred slot
        bid.level bid.round bid.payload_hash)
      all_goals rw [hs] at hmem
      · simp at hmem
      · rename_i ds
        obtain ⟨d, s⟩ := ds
        simp only [List.mem_cons, List.not_mem_nil, or_false] at hmem
        rcases hmem with h | h <;> cases h
        exact ⟨SignBody.endorsementB pred slot bid.level bid.round
          bid.payload_hash, rfl, rfl⟩
  | propose block p =>
    simp only [performAction] at hmem
    cases hdisp : payloadHashDispatch env block
    all_goals rw [hdisp] at hmem
    · simp at hmem
    · rename_i ph
      simp only at hmem
      cases hs1 : signFn env 0x11 (SignBody.protoHeaderB _)
      all_goals rw [hs1] at hmem
      · simp at hmem
      · rename_i ds
        obtain ⟨d, s⟩ := ds
        simp only at hmem
        cases hp : env.preapply _ block.pred_hash (i64OfU64 block.timestamp) _
        all_goals rw [hp] at hmem
        · simp only [List.mem_cons, List.not_mem_nil, or_false] at hmem
          rcases hmem with h | h <;> cases h
          exact ⟨SignBody.protoHeaderB _, rfl, rfl⟩
        · rename_i hdrops
          obtain ⟨header, preapplied⟩ := hdrops
          simp only at hmem
          cases hs2 : signFn env 0x11 (SignBody.shellHeaderB _)
          all_goals rw [hs2] at hmem
          · simp only [List.mem_cons, List.not_mem_nil, or_false] at hmem
            rcases hmem with h | h <;> cases h
            exact ⟨SignBody.protoHeaderB _, rfl, rfl⟩
          · simp only [List.mem_cons, List.not_mem_nil, or_false] at hmem
            rcases hmem with h | h | h | h <;> cases h
            · exact ⟨SignBody.protoHeaderB _, rfl, rfl⟩
            · exact ⟨SignBody.shellHeaderB _, rfl, rfl⟩

/-- Claim C7: every signing call the driver makes uses magic 0x11 for
blocks (protocol header and final shell header), 0x12 for preendorsements
and 0x13 for endorsements, and the signed payload is
`magic || chain_id || canonical body bytes`. -/
theorem c7_signing_magic (env : PerformEnv) :
    ∀ actions effs ok, perform env actions = (effs, ok) →
      ∀ m msg, Effect.signed m msg ∈ effs →
        ∃ body, msg = watermark env m body ∧ bodyMagicOk m body := by
  intro actions
  induction actions with
  | nil =>
    intro effs ok hrun m msg hmem
    simp only [perform, Prod.mk.injEq] at hrun
    rw [← hrun.1] at hmem
    simp at hmem
  | cons a rest ih =>
    intro effs ok hrun m msg hmem
    simp only [perform] at hrun
    cases hr2 : (performAction env a).2
    all_goals rw [hr2] at hrun
    · simp only [Bool.false_eq_true, if_false, Prod.mk.injEq] at hrun
      rw [← hrun.1] at hmem
      exact performAction_signed_shape env a m msg hmem
    · simp only [if_true, Prod.mk.injEq] at hrun
      rw [← hrun.1] at hmem
      rcases List.mem_append.mp hmem with h | h
      · exact performAction_signed_shape env a m msg h
      · exact ih (perform env rest).1 (perform env rest).2 rfl m msg h

/-- Witness for C7 on a concrete preendorse run: the single signing call
uses magic 0x12 and the watermarked message. -/
theorem c7_signing_magic_witness :
    perform envW [TbAction.preendorse zero32 bidW] =
      ([Effect.signed 0x12 (0x12 :: ([1, 2, 3, 4] ++ [9])),
        Effect.injectOperation ([9] ++ [8])], true) ∧
    ∃ body, (0x12 :: ([1, 2, 3, 4] ++ [9]) : Bytes) =
        watermark envW 0x12 body ∧ bodyMagicOk 0x12 body :=
  ⟨rfl,
    c7_signing_magic envW [TbAction.preendorse zero32 bidW] _ _ rfl
      0x12 (0x12 :: ([1, 2, 3, 4] ++ [9])) (by decide)⟩

/-! ## Claim C8: the timer (timer.rs lines 17-59) -/

/-- `Task` sent to the timer thread: a `First(timestamp)` deadline or a
`Next(duration)` delayed deadline. -/
inductive TimerTask where
  | first (timestamp : Int)
  | next (duration : Nat)
deriving DecidableEq

/-- The inputs the timer thread reacts to: a task received on its channel,
or the pending deadline elapsing (`recv_timeout` hitting `Timeout`). -/
inductive TimerIn where
  | recv (t : TimerTask)
  | elapsed
deriving DecidableEq

/-- The actions the timer sends to the driver's channel. -/
inductive TimerOut where
  | timeout
  | timeoutDelayed
deriving DecidableEq

/-- Installing a received task (timer.rs lines 45-52): `First` converts
the timestamp to a duration from now (`dfn`), `Next` keeps the duration
and sets the delayed flag. -/
def timerApplyTask (dfn : Int → Nat) : TimerTask → Option (Nat × Bool)
  | TimerTask.first ts => some (dfn ts, false)
  | TimerTask.next dur => some (dur, true)

/-- One iteration of the timer thread loop (timer.rs lines 21-53), on the
state `d : Option (duration, delayed)`: a received task replaces whatever
deadline was pending; an elapsing deadline emits exactly one timeout
action and clears the pending deadline (`d.take()`); with no pending
deadline the thread blocks in `recv`, so an elapse emits nothing. -/
def timerStep (dfn : Int → Nat) :
    Option (Nat × Bool) → TimerIn → Option (Nat × Bool) × List TimerOut
  | _, TimerIn.recv t => (timerApplyTask dfn t, [])
  | some (_, delayed), TimerIn.elapsed =>
    (none, [if delayed then TimerOut.timeoutDelayed else TimerOut.timeout])
  | none, TimerIn.elapsed => (none, [])

/-- The timer thread as a run over a sequence of inputs. -/
def timerRun (dfn : Int → Nat) :
    Option (Nat × Bool) → List TimerIn → Option (Nat × Bool) × List TimerOut
  | s, [] => (s, [])
  | s, i :: rest =>
    let r := timerStep dfn s i
    let r' := timerRun dfn r.1 rest
    (r'.1, r.2 ++ r'.2)

theorem timerRun_none_all_elapsed (dfn : Int → Nat) :
    ∀ tr, (∀ i ∈ tr, i = TimerIn.elapsed) →
      timerRun dfn none tr = (none, []) := by
  intro tr
  induction tr with
  | nil => intro _; rfl
  | cons i rest ih =>
    intro hall
    have hi := hall i (List.mem_cons_self i rest)
    subst hi
    simp only [timerRun, timerStep]
    simp [ih (fun j hj => hall j (List.mem_cons_of_mem _ hj))]

/-- Claim C8: the timer holds at most one pending deadline — a received
schedule replaces any pending deadline; an elapse emits at most one
timeout; firing clears the deadline; and in any stretch of time with no
new schedule arriving, at most one timeout is delivered in total. -/
theorem c8_timer_single_shot (dfn : Int → Nat) :
    (∀ s t, timerStep dfn s (TimerIn.recv t) = (timerApplyTask dfn t, [])) ∧
    (∀ s i, (timerStep dfn s i).2.length ≤ 1) ∧
    (∀ x, (timerStep dfn (some x) TimerIn.elapsed).1 = none ∧
      (timerStep dfn (some x) TimerIn.elapsed).2.length = 1) ∧
    (∀ tr s, (∀ i ∈ tr, i = TimerIn.elapsed) →
      (timerRun dfn s tr).2.length ≤ 1) := by
  refine ⟨?_, ?_, ?_, ?_⟩
  · intro s t
    rcases s with _ | ⟨d, b⟩ <;> rfl
  · intro s i
    rcases s with _ | ⟨d, b⟩ <;> rcases i with t | _ <;>
      simp [timerStep, timerApplyTask]
  · intro x
    rcases x with ⟨d, b⟩
    exact ⟨rfl, rfl⟩
  · intro tr s hall
    cases tr with
    | nil => simp [timerRun]
    | cons i rest =>
      have hi := hall i (List.mem_cons_self i rest)
      subst hi
      have hrest : ∀ j ∈ rest, j = TimerIn.elapsed :=
        fun j hj => hall j (List.mem_cons_of_mem _ hj)
      rcases s with _ | ⟨d, b⟩
      · simp [timerRun, timerStep, timerRun_none_all_elapsed dfn rest hrest]
      · simp only [timerRun, timerStep,
          timerRun_none_all_elapsed dfn rest hrest]
        cases b <;> simp

/-- Witness for C8: from a pending deadline, two consecutive elapses
deliver exactly one timeout. -/
theorem c8_timer_single_shot_witness :
    (∀ i ∈ [TimerIn.elapsed, TimerIn.elapsed], i = TimerIn.elapsed) ∧
    (timerRun (fun _ => 0) (some (3, false))
      [TimerIn.elapsed, TimerIn.elapsed]).2.length ≤ 1 :=
  ⟨by decide,
    (c8_timer_single_shot (fun _ => 0)).2.2.2
      [TimerIn.elapsed, TimerIn.elapsed] (some (3, false)) (by decide)⟩
